import Mathlib

/-!
Shallow embedding of the AI-chatbox repository (Python) in Lean 4.

The repository is a chat application: user messages are classified into an
intent code by an LLM call, routed to a handler (RAG over per-session vector
collections, web search summarization, professional prompts, or daily chat),
and all conversation turns are persisted in a SQLite message log keyed by a
UUID session id.  External effects (the chat-completions endpoint, the SerpAPI
HTTP provider, the embedding distance used by ChromaDB) are modelled as
explicit oracles passed to the embedded functions; everything else is
translated from the source.
-/

namespace AIChatbox

/-! ## Python string primitives

Python strings are sequences of code points; `str.strip()`, `str.upper()`,
slicing and single-character `str.replace(c, "")` are modelled directly on
the code-point list of the Lean string (`String.data`), which matches the
Python semantics and keeps every definition kernel-computable. -/

/-- `str.strip()`: remove leading and trailing whitespace. -/
def pyStrip (s : String) : String :=
  ⟨((s.data.dropWhile Char.isWhitespace).reverse.dropWhile Char.isWhitespace).reverse⟩

/-- `str.upper()`. -/
def pyUpper (s : String) : String := ⟨s.data.map Char.toUpper⟩

/-- `s[:n]`: slicing by code points. -/
def pyTake (n : Nat) (s : String) : String := ⟨s.data.take n⟩

/-- `str.replace(c, "")` for a single-character pattern. -/
def pyRemoveChar (c : Char) (s : String) : String :=
  ⟨s.data.filter (fun x => x != c)⟩

/-! ## utils/llm_utils.py -/

/-- A Python exception escaping a call: `openai.APIError` or any other. -/
inductive PyExc where
  | apiError (msg : String)
  | other (msg : String)
deriving Repr, DecidableEq

/-- Oracle for the chat-completions endpoint: given the prompt, the raw
`response.choices[0].message.content`, or the exception the call raised. -/
def Completion := String → Except PyExc String

/-- `llm_utils.generate_text`: fallback on `openai.APIError`. -/
def llm_api_error_msg : String := "抱歉，我暂时无法回答这个问题。😅"

/-- `llm_utils.generate_text`: fallback on any other exception. -/
def llm_error_msg : String := "处理您的请求时发生了错误。😅"

/-- `LLMUtils.generate_text`: calls the completion endpoint, strips the
content, and converts any exception into a fixed fallback string (two catch
branches: `openai.APIError` first, then bare `Exception`). -/
def generate_text (complete : Completion) (prompt : String) : String :=
  match complete prompt with
  | .ok content => pyStrip content
  | .error (.apiError _) => llm_api_error_msg
  | .error (.other _) => llm_error_msg

/-- `config.INTENT_PROMPT.format(user_input=...)`: the classification prompt.
The long instruction template of `config.py` is abbreviated here (no claim
depends on its wording); the substitution structure — a fixed template with
the user input spliced at the end — is preserved. -/
def INTENT_PROMPT (user_input : String) : String :=
  "你是一个专业的智能意图分类器。请将用户输入分类，仅输出对应的大写字母代码 (A, B, C, D, E, F, G, H, J, K)。现在，请对以下用户输入进行分类：用户输入：" ++ user_input

/-- `config.VALID_INTENTS` (identical to the local `valid_intents` list in
`LLMUtils.classify_intent`). -/
def VALID_INTENTS : List String :=
  ["A", "B", "C", "D", "E", "F", "G", "H", "J", "K"]

/-- `LLMUtils.classify_intent`: one best-effort completion call, then
`intent.strip().upper()` and a membership test against the valid list;
anything else becomes `"D"`. -/
def classify_intent (complete : Completion) (user_input : String) : String :=
  let intent := generate_text complete (INTENT_PROMPT user_input)
  let intent := pyUpper (pyStrip intent)
  if intent ∈ VALID_INTENTS then intent else "D"

/-! ## modules/intent_recognition.py -/

/-- `IntentRecognizer.recognize`: calls `classify_intent` and re-validates the
result against `config.VALID_INTENTS`, defaulting to `"D"`.  The surrounding
`try/except` (which also returns `"D"`) has no reachable failure source in
the embedding because `classify_intent` is total. -/
def recognize (complete : Completion) (user_input : String) : String :=
  let intent := classify_intent complete user_input
  if intent ∈ VALID_INTENTS then intent else "D"

/-! ## modules/web_search.py -/

/-- Outcome of one HTTP attempt against the SerpAPI endpoint, as observed by
`WebSearch.search`: a timeout, an HTTP error from `raise_for_status`, any
other exception, or a parsed JSON response.  For a response, `organic` is
`none` when the `organic_results` key is absent, otherwise the list of
results, each with its optional `snippet` field. -/
inductive SearchAttempt where
  | timeout
  | httpError (code : Nat)
  | otherExc (msg : String)
  | ok (organic : Option (List (Option String)))
deriving Repr

/-- `WebSearch.search`: reply when no API key is configured. -/
def no_key_msg : String := "网络搜索功能不可用，请配置API密钥"

/-- `WebSearch.search`: reply when the response has no `organic_results`. -/
def no_results_msg : String := "没有搜索到相关信息"

/-- `WebSearch.search`: reply after all attempts failed. -/
def search_failed_msg : String := "多次尝试后，网络搜索仍然失败，请稍后再试"

/-- The retry loop body of `WebSearch.search`
(`for attempt in range(1, max_retries + 2)`), with `provider` the oracle for
attempt number `attempt`.  On a parsed response the snippets of the first
`num_results` results are joined; a missing `snippet` field defaults to "".
On timeout, HTTP error or any other exception the loop sleeps (base delay
plus random jitter, irrelevant to the result value) and retries. -/
def searchLoop (provider : String → Nat → SearchAttempt) (query : String)
    (num_results : Nat) (attempt : Nat) (remaining : Nat) : String :=
  match remaining with
  | 0 => search_failed_msg
  | r + 1 =>
    match provider query attempt with
    | .ok (some results) =>
      String.intercalate "\n\n"
        ((results.take num_results).map (fun s => s.getD ""))
    | .ok none => no_results_msg
    | .timeout => searchLoop provider query num_results (attempt + 1) r
    | .httpError _ => searchLoop provider query num_results (attempt + 1) r
    | .otherExc _ => searchLoop provider query num_results (attempt + 1) r

/-- `WebSearch.search(query, num_results=5, max_retries=3, retry_delay=5)`:
if the API key is falsy the fixed unavailability string is returned before
any attempt; otherwise the loop runs `max_retries + 1` attempts (the initial
one plus `max_retries` retries, attempt counter starting at 1), each HTTP
request carrying the query. -/
def search (api_key query : String) (provider : String → Nat → SearchAttempt)
    (num_results : Nat) (max_retries : Nat) : String :=
  if api_key = "" then no_key_msg
  else searchLoop provider query num_results 1 (max_retries + 1)

/-- The summarization prompt of `WebSearch.summarize_search_results`
(f-string embedding the query and the search results). -/
def summarize_prompt (query search_results : String) : String :=
  "根据以下网络搜索结果，回答用户的问题：\n\n问题：" ++ query ++
  "\n\n具体的搜索结果：\n" ++ search_results ++
  "\n\n😊 请提取关键信息，提供简洁、准确的回答："

/-- `WebSearch.summarize_search_results`: runs `search` with its default
arguments, splices the result into the summarization prompt, and returns
`llm_utils.generate_text(prompt)`. -/
def summarize_search_results (complete : Completion) (api_key : String)
    (provider : String → Nat → SearchAttempt) (query : String) : String :=
  let search_results := search api_key query provider 5 3
  generate_text complete (summarize_prompt query search_results)

/-! ## modules/intent_router.py -/

/-- The services a router handler can invoke, as oracles; each may raise
(model of `rag.rag_system.query`, `daily_chat.daily_chat.generate_response`,
`web_search.web_searcher.summarize_search_results`,
`professional_qa.professional_qa.answer_comparison` / `answer_evaluation`). -/
structure HandlerEnv where
  ragQuery : String → String → Except PyExc String
  dailyChatGen : String → List (String × String) → Except PyExc String
  webSummarize : String → Except PyExc String
  answerComparison : String → Except PyExc String
  answerEvaluation : String → Except PyExc String

/-- `IntentRouter._handle_course_question`: internal fallback. -/
def course_error_msg : String := "抱歉，处理课程问题时出现错误。😅"

/-- `IntentRouter._handle_file_question`: internal fallback. -/
def file_error_msg : String := "抱歉，处理文件问题时出现错误。😅"

/-- `IntentRouter._handle_unknown_intent`: the static clarification reply. -/
def unknown_intent_msg : String :=
  "抱歉，我暂时无法理解您的问题类型。🤔 请尝试用更清晰的方式提问。"

/-- `IntentRouter._handle_error`: the static apology reply. -/
def router_error_msg : String := "抱歉，处理您的请求时遇到了问题。😅 请稍后再试。"

/-- A handler as seen by `route`: Python callables that either return a string
or raise. -/
def Handler : Type :=
  HandlerEnv → String → String → List (String × String) → Except PyExc String

/-- `_handle_course_question` (intent A): RAG query with an internal
`try/except` returning a static course-error string. -/
def handle_course_question : Handler := fun env user_input sid _history =>
  match env.ragQuery user_input sid with
  | .ok r => .ok r
  | .error _ => .ok course_error_msg

/-- `_handle_daily_chat` (intent C): rebuilds `(role, content)` pairs from the
history (the `len(item) >= 2` guard always passes for pairs) and calls the
daily-chat generator. -/
def handle_daily_chat : Handler := fun env user_input _sid history =>
  let recent_history := history.map (fun p => (p.1, p.2))
  env.dailyChatGen user_input recent_history

/-- `_handle_definition_question` (intent E): web-search summarization. -/
def handle_definition_question : Handler := fun env user_input _sid _history =>
  env.webSummarize user_input

/-- `_handle_method_question` (intent F): web-search summarization. -/
def handle_method_question : Handler := fun env user_input _sid _history =>
  env.webSummarize user_input

/-- `_handle_comparison_question` (intent G): professional comparison
prompt. -/
def handle_comparison_question : Handler := fun env user_input _sid _history =>
  env.answerComparison user_input

/-- `_handle_evaluation_question` (intent H): professional evaluation
prompt. -/
def handle_evaluation_question : Handler := fun env user_input _sid _history =>
  env.answerEvaluation user_input

/-- `_handle_other_question` (intent J): web-search summarization. -/
def handle_other_question : Handler := fun env user_input _sid _history =>
  env.webSummarize user_input

/-- `_handle_file_question` (intent K): RAG query with an internal
`try/except` returning a static file-error string. -/
def handle_file_question : Handler := fun env user_input sid _history =>
  match env.ragQuery user_input sid with
  | .ok r => .ok r
  | .error _ => .ok file_error_msg

/-- `IntentRouter.__init__`: the fixed `intent_handlers` dictionary. -/
def intent_handlers (intent : String) : Option Handler :=
  if intent = "A" then some handle_course_question
  else if intent = "C" then some handle_daily_chat
  else if intent = "E" then some handle_definition_question
  else if intent = "F" then some handle_method_question
  else if intent = "G" then some handle_comparison_question
  else if intent = "H" then some handle_evaluation_question
  else if intent = "J" then some handle_other_question
  else if intent = "K" then some handle_file_question
  else none

/-- `IntentRouter.route`: looks the intent up in the table; an unmapped code
yields `_handle_unknown_intent()`; otherwise the handler runs inside
`try/except` and any exception yields `_handle_error()`. -/
def route (env : HandlerEnv) (intent user_input sid : String)
    (history : List (String × String)) : String :=
  match intent_handlers intent with
  | none => unknown_intent_msg
  | some handler =>
    match handler env user_input sid history with
    | .ok result => result
    | .error _ => router_error_msg

/-! ## UUID session ids

Session ids are produced by `str(uuid.uuid4())`: the canonical textual form,
36 characters, lowercase hex with hyphens at positions 8, 13, 18 and 23.
`uuid.UUID(str(sid))` — the validation used by `rag.py`, `file_processing.py`
and `ui_handlers.py` — accepts exactly this form for the ids the system
itself generates, and canonicalization (`str(uuid.UUID(s))`) is the identity
on it, so the embedding models validity as the canonical-form check. -/

/-- One lowercase hexadecimal digit. -/
def isLowerHexDigit (c : Char) : Bool :=
  (('0' ≤ c) && (c ≤ '9')) || (('a' ≤ c) && (c ≤ 'f'))

/-- Character admissible at position `i` of a canonical UUID string. -/
def uuidCharOk (i : Nat) (c : Char) : Bool :=
  if i = 8 || i = 13 || i = 18 || i = 23 then c = '-' else isLowerHexDigit c

/-- `uuid.UUID(str(sid))` succeeding, for canonical-form ids (see above). -/
def isCanonicalUUID (s : String) : Bool :=
  s.data.length = 36 && s.data.enum.all (fun ic => uuidCharOk ic.1 ic.2)

/-! ## utils/database.py and modules/chat_management.py

The SQLite database is modelled in memory: the `sessions` and `messages`
tables are lists of rows, insertion appends, and `datetime.now().isoformat()`
timestamps are modelled by a strictly increasing `clock` (ISO timestamps with
microseconds are strictly increasing across the sequential operations of one
process).  `DatabaseManager.get_messages` does `ORDER BY ts`; since stored
timestamps strictly increase with insertion order, that equals the insertion
order filter used here (`get_messages_ts_sorted` below proves the stored log
is strictly `ts`-sorted in every reachable state). -/

/-- A row of the `messages` table (`sid`, `role`, `content`, `ts`). -/
structure MsgRow where
  sid : String
  role : String
  content : String
  ts : Nat
deriving Repr, DecidableEq

/-- A row of the `sessions` table (`sid`, `phone`, `title`, `created`). -/
structure SessionRow where
  sid : String
  phone : String
  title : String
  created : Nat
deriving Repr, DecidableEq

/-- A chunk stored in ChromaDB by `FileProcessor.process_file`: the document
text plus the metadata fields relevant to the claims (`source`,
`chunk_index`, `session_id`). -/
structure Chunk where
  text : String
  source : String
  chunk_index : Nat
  session_id : String
deriving Repr, DecidableEq

/-- The persistent state: the two SQLite tables, the ChromaDB vector store
(flattened to pairs of collection name and stored chunk), a log of the
invocations of `ChatManager.auto_rename_session` (the observable claim C4 is
about), and the timestamp clock. -/
structure St where
  sessions : List SessionRow
  msgs : List MsgRow
  vec : List (String × Chunk)
  renameInvocations : List String
  clock : Nat
deriving Repr, DecidableEq

/-- The empty database and vector store. -/
def St.init : St := ⟨[], [], [], [], 0⟩

/-- `DatabaseManager.add_message`: INSERT into `messages` with the current
timestamp (always succeeds on the in-memory model). -/
def db_add_message (st : St) (sid role content : String) : St :=
  { st with msgs := st.msgs ++ [⟨sid, role, content, st.clock⟩],
            clock := st.clock + 1 }

/-- `DatabaseManager.get_messages(sid)` / `ChatManager.get_messages`:
the rows of `messages` with this `sid`, in timestamp order (see the module
comment: equal to insertion order here). -/
def get_messages (st : St) (sid : String) : List MsgRow :=
  st.msgs.filter (fun m => m.sid == sid)

/-- `DatabaseManager.get_sessions(phone)` restricted to what the embedding
needs: the session rows of this user. -/
def get_sessions (st : St) (phone : String) : List SessionRow :=
  st.sessions.filter (fun s => s.phone == phone)

/-- `ChatManager.count_sessions`. -/
def count_sessions (st : St) (phone : String) : Nat :=
  (get_sessions st phone).length

/-- The renaming prompt of `ChatManager.auto_rename_session` (instruction
text abbreviated; the substitution of the first user message and first
assistant reply, each truncated to 200 characters, is preserved). -/
def rename_prompt (first_user_msg first_assistant_msg : String) : String :=
  "请根据以下对话内容，为这个聊天会话生成一个简洁有意义的名称（2-8个字）：用户问题：" ++
  first_user_msg ++ "助手回复：" ++ first_assistant_msg ++
  "只返回生成的名称，不要其他解释："

/-- `ChatManager.auto_rename_session`: reads the first 10 messages, needs at
least 2 of them and at least one user message, asks the LLM for a title,
strips quote characters, and updates the session row's title when the result
has at least 2 characters.  Every invocation is recorded in
`renameInvocations` — that log is the observable for claim C4. -/
def auto_rename_session (complete : Completion) (st : St) (sid : String) : St :=
  let st := { st with renameInvocations := st.renameInvocations ++ [sid] }
  let messages := (get_messages st sid).take 10
  if messages.length < 2 then st
  else
    let user_messages := messages.filter (fun m => m.role == "user")
    let assistant_messages := messages.filter (fun m => m.role == "assistant")
    match user_messages with
    | [] => st
    | u :: _ =>
      let first_user_msg := pyTake 200 u.content
      let first_assistant_msg :=
        match assistant_messages with
        | [] => ""
        | a :: _ => pyTake 200 a.content
      let new_title :=
        pyStrip (generate_text complete (rename_prompt first_user_msg first_assistant_msg))
      let new_title := pyStrip (pyRemoveChar '\x27' (pyRemoveChar '\x22' new_title))
      if new_title.data.length < 2 then st
      else
        { st with sessions := st.sessions.map (fun s =>
            if s.sid == sid then { s with title := new_title } else s) }

/-- `ChatManager.add_message`: persists the row, then — only after an
assistant-role message — checks whether the session now has exactly 2
messages and, if so, invokes `auto_rename_session`. -/
def add_message (complete : Completion) (st : St) (sid role content : String) : St :=
  let st1 := db_add_message st sid role content
  if role == "assistant" && (get_messages st1 sid).length == 2 then
    auto_rename_session complete st1 sid
  else st1

/-- `config.i18n.get('new_session_created')`: the welcome message. -/
def welcome_msg : String := "👋 同学您好！很高兴为你服务！"

/-- `ChatManager.create_session`: `sid` models the fresh value returned by
`uuid.uuid4()`.  A falsy title is replaced by a numbered default; the session
row is inserted (the INSERT fails exactly when the primary key `sid` already
exists, in which case the function returns `""` and the state is unchanged);
on success the welcome message is immediately appended through `add_message`
with role `"assistant"`, and the new sid is returned. -/
def create_session (complete : Completion) (st : St) (sid phone : String)
    (title : Option String) : St × String :=
  let title1 := match title with
    | none => "会话" ++ toString (count_sessions st phone + 1)
    | some t => if t = "" then "会话" ++ toString (count_sessions st phone + 1) else t
  if st.sessions.any (fun s => s.sid == sid) then (st, "")
  else
    let row : SessionRow := ⟨sid, phone, title1, st.clock⟩
    let st1 := { st with sessions := st.sessions ++ [row], clock := st.clock + 1 }
    let st2 := add_message complete st1 sid "assistant" welcome_msg
    (st2, sid)

/-! ## modules/rag.py and modules/file_processing.py -/

/-- Collection naming shared by `RAGSystem.retrieve` and
`FileProcessor.process_file`: `f"session_{sid}"`. -/
def collection_name (sid : String) : String := "session_" ++ sid

/-- `RAGSystem.retrieve` at the level of stored records: validates the UUID
(returning `[]` on failure), then queries only the collection named by the
session id — ChromaDB's nearest-`top_k` query is modelled by sorting the
collection's chunks by an embedding-distance oracle `dist` and taking
`top_k`.  A missing collection returns `[]` (the code also creates an empty
collection in that case, which changes no query result). -/
def retrieveChunks (dist : String → String → Nat) (st : St)
    (query sid : String) (top_k : Nat) : List Chunk :=
  if isCanonicalUUID sid then
    let chunks := (st.vec.filter (fun nc => nc.1 == collection_name sid)).map (fun nc => nc.2)
    (chunks.insertionSort (fun a b => dist query a.text ≤ dist query b.text)).take top_k
  else []

/-- `RAGSystem.retrieve`: the document texts of the retrieved chunks
(`[str(doc) for doc in results["documents"][0]]`). -/
def retrieve (dist : String → String → Nat) (st : St)
    (query sid : String) (top_k : Nat) : List String :=
  (retrieveChunks dist st query sid top_k).map (fun c => c.text)

/-- The externally determined outcomes inside one `process_file` run:
the result of `load_document` (`none` on load failure/timeout/empty), the
result of `text_splitter.split_documents` (`none` when it raises), whether
`get_or_create_collection` succeeded, and the batch index at which
`collection.add` raises (`none` when every batch succeeds). -/
structure FileOutcome where
  docs : Option (List String)
  split : Option (List String)
  collOk : Bool
  failBatch : Option Nat
deriving Repr, DecidableEq

/-- The progress percentage `f"{(batch_end / total_chunks) * 100:.0f}"`,
rounded to the nearest integer (half away from zero; Python's float
formatting rounds ties to even, a difference only at exact-half percentages,
which no claim depends on). -/
def progress_pct (batch_end total : Nat) : Nat :=
  (batch_end * 100 * 2 + total) / (total * 2)

/-- `process_file` start notification. -/
def start_processing_msg (file_name : String) : String :=
  "📄 正在处理文档: " ++ file_name ++ "..."

/-- `process_file` load-failure notification. -/
def load_failed_msg (file_name : String) : String :=
  "❌ 无法加载文档: " ++ file_name

/-- `process_file` splitter-exception notification. -/
def split_failed_msg (file_name : String) : String :=
  "❌ 文档分块失败: " ++ file_name

/-- `process_file` empty-split notification. -/
def split_empty_msg (file_name : String) : String :=
  "⚠️ 文档分块为空: " ++ file_name

/-- `process_file` collection-failure notification. -/
def coll_failed_msg : String := "❌ 向量数据库连接失败"

/-- `process_file` batch milestone notification (documents over 100 chunks). -/
def batch_progress_msg (batch_end total : Nat) : String :=
  "📊 处理中... " ++ toString (progress_pct batch_end total) ++ "%"

/-- `process_file` terminal success notification. -/
def process_success_msg (file_name : String) (chunks : Nat) : String :=
  "✅ 文档处理完成: " ++ file_name ++ " (" ++ toString chunks ++ " 个片段)"

/-- `process_file` vector-storage failure notification. -/
def store_failed_msg (file_name : String) : String :=
  "❌ 向量存储失败: " ++ file_name

/-- `range(0, total, batch_size)`: the batch start indices of the storage
loop of `process_file` (for a positive `batch_size`). -/
def batch_starts (total batch_size : Nat) : List Nat :=
  (List.range ((total + batch_size - 1) / batch_size)).map (fun j => j * batch_size)

/-- The batch loop of `process_file` (step 5,
`for i in range(0, total_chunks, batch_size)` with `batch_size = 50`): the
slice `chunks[i : i + 50]` of each start index is added to the session's
collection; after each batch, documents over 100 chunks get a system-role
progress message (`batch_end = min(i + batch_size, total_chunks)`); when
`collection.add` raises (`failBatch` names the batch index) a system-role
storage-failure message is appended and the run fails; after the last batch
the completion notification is appended — with role `"assistant"` — and the
run succeeds. -/
def process_batches (complete : Completion) (sid file_name coll : String)
    (chunks : List Chunk) (total : Nat) (failBatch : Option Nat) :
    St → List Nat → Nat → St × Bool
  | st, [], _batchIdx =>
    (add_message complete st sid "assistant" (process_success_msg file_name total), true)
  | st, i :: starts, batchIdx =>
    if failBatch = some batchIdx then
      (add_message complete st sid "system" (store_failed_msg file_name), false)
    else
      let batch := (chunks.drop i).take 50
      let st1 := { st with vec := st.vec ++ batch.map (fun ch => (coll, ch)) }
      let batch_end := min (i + 50) total
      let st2 :=
        if total > 100 then
          add_message complete st1 sid "system" (batch_progress_msg batch_end total)
        else st1
      process_batches complete sid file_name coll chunks total failBatch
        st2 starts (batchIdx + 1)

/-- `FileProcessor.process_file`: validates the UUID (for canonical ids the
`str(uuid.UUID(sid))` canonicalization is the identity), appends the start
notification with role `"system"`, then loads, splits, opens the
session-named collection and stores the chunks in batches; every failure
path appends a system-role notification and returns `False`.  The chunk
metadata records `source = file_name`, the chunk index and
`session_id = sid`.  (The outer `except` branch has no reachable failure
source in the embedding, every modelled step being total.) -/
def process_file (complete : Completion) (st : St) (sid : String)
    (fo : FileOutcome) (file_name : String) : St × Bool :=
  if isCanonicalUUID sid then
    let st1 := add_message complete st sid "system" (start_processing_msg file_name)
    match fo.docs with
    | none => (add_message complete st1 sid "system" (load_failed_msg file_name), false)
    | some _ =>
      match fo.split with
      | none => (add_message complete st1 sid "system" (split_failed_msg file_name), false)
      | some [] => (add_message complete st1 sid "system" (split_empty_msg file_name), false)
      | some texts =>
        if fo.collOk then
          let chunks := texts.enum.map (fun it => Chunk.mk it.2 file_name it.1 sid)
          process_batches complete sid file_name (collection_name sid)
            chunks texts.length fo.failBatch st1 (batch_starts texts.length 50) 0
        else
          (add_message complete st1 sid "system" coll_failed_msg, false)
  else (st, false)

/-! ## modules/ui_handlers.py -/

/-- The oracles a full message-processing step consumes: the completion
endpoint and the router's handler services. -/
structure Oracles where
  complete : Completion
  env : HandlerEnv

/-- `MessageHandler.process_message`: empty input returns unchanged; the
caller-supplied session id is validated as a UUID and, when invalid, a fresh
session is created (`freshSid` models the `uuid.uuid4()` of that call).
The code then persists the user turn, recognizes the intent, routes, and
persists the assistant turn — all under the ORIGINAL `sid` variable (not the
validated `sid_str`), and returns the original `sid`.  Prediction of
follow-up questions touches no persisted state and is omitted. -/
def process_message (o : Oracles) (st : St) (text sid phone freshSid : String) :
    St × String :=
  let text := pyStrip text
  if text = "" then (st, sid)
  else
    let stv :=
      if isCanonicalUUID sid then st
      else (create_session o.complete st freshSid phone none).1
    let st1 := add_message o.complete stv sid "user" text
    let db_messages := get_messages st1 sid
    let formatted_messages := db_messages.map (fun m => (m.role, m.content))
    let intent := recognize o.complete text
    let reply := route o.env intent text sid formatted_messages
    let st2 := add_message o.complete st1 sid "assistant" reply
    (st2, sid)

/-! ## Traces -/

/-- The state-changing operations a claim quantifies over. -/
inductive Event where
  | createSession (sid phone : String) (title : Option String)
  | addMessage (sid role content : String)
  | processFile (sid : String) (fo : FileOutcome) (file_name : String)
  | processMessage (text sid phone freshSid : String)

/-- One step of the system. -/
def step (o : Oracles) (st : St) : Event → St
  | .createSession sid phone title => (create_session o.complete st sid phone title).1
  | .addMessage sid role content => add_message o.complete st sid role content
  | .processFile sid fo file_name => (process_file o.complete st sid fo file_name).1
  | .processMessage text sid phone freshSid =>
      (process_message o st text sid phone freshSid).1

/-- Running a trace of events. -/
def runTrace (o : Oracles) (st : St) (evs : List Event) : St :=
  evs.foldl (step o) st

/-! ## State invariants -/

/-- Every stored vector-database entry lives in the collection named after
the session id recorded in its own metadata — the keying discipline of
`process_file`. -/
def VecWF (st : St) : Prop :=
  ∀ p ∈ st.vec, p.1 = collection_name p.2.session_id

/-- Message timestamps strictly increase with insertion order and stay below
the clock: the invariant making `ORDER BY ts` coincide with insertion
order. -/
def TsWF (st : St) : Prop :=
  List.Pairwise (fun a b => a.ts < b.ts) st.msgs ∧ ∀ m ∈ st.msgs, m.ts < st.clock

/-! ## Concrete fixtures

Closed instances used to witness the theorems below on concrete inputs. -/

/-- A search attempt that failed (timeout, HTTP error, or other exception):
the branches of `WebSearch.search` that sleep and retry. -/
def isFailureAttempt : SearchAttempt → Bool
  | .ok _ => false
  | .timeout => true
  | .httpError _ => true
  | .otherExc _ => true

/-- Handler services that all answer successfully. -/
def env0 : HandlerEnv :=
  ⟨fun _ _ => .ok "rag-answer", fun _ _ => .ok "chat-answer",
   fun _ => .ok "web-answer", fun _ => .ok "cmp-answer", fun _ => .ok "eval-answer"⟩

/-- A completion endpoint that always answers with a fixed reply. -/
def complete0 : Completion := fun _ => .ok "好的，我来帮你。"

/-- A completion endpoint that always answers with a single intent letter. -/
def completeA : Completion := fun _ => .ok "A"

/-- Oracles combining `completeA` and `env0`. -/
def o0 : Oracles := ⟨completeA, env0⟩

/-- A concrete canonical UUID. -/
def uuidA : String := "11111111-1111-4111-8111-111111111111"

/-- A second, distinct canonical UUID. -/
def uuidB : String := "22222222-2222-4222-8222-222222222222"

/-- A trivial embedding-distance oracle. -/
def dist0 : String → String → Nat := fun _ _ => 0

/-- A search provider that times out on every attempt. -/
def providerTimeout : String → Nat → SearchAttempt := fun _ _ => .timeout

/-- A file-processing outcome where every external step succeeds and the
document splits into two chunks. -/
def fileOutcomeOk : FileOutcome := ⟨some ["doc"], some ["chunk one", "chunk two"], true, none⟩

/-! ## Supporting lemmas -/

/-- When every attempt in the window fails, the retry loop of
`WebSearch.search` exhausts and returns the failure marker. -/
theorem searchLoop_all_fail (provider : String → Nat → SearchAttempt)
    (query : String) (num_results : Nat) :
    ∀ remaining attempt,
      (∀ i, attempt ≤ i → i < attempt + remaining →
        isFailureAttempt (provider query i) = true) →
      searchLoop provider query num_results attempt remaining = search_failed_msg := by
  intro remaining
  induction remaining with
  | zero => intro attempt _; rfl
  | succ r ih =>
    intro attempt h
    have hfail : isFailureAttempt (provider query attempt) = true :=
      h attempt (Nat.le_refl _) (by omega)
    unfold searchLoop
    cases hp : provider query attempt with
    | ok organic => rw [hp] at hfail; simp [isFailureAttempt] at hfail
    | timeout => exact ih (attempt + 1) (fun i h1 h2 => h i (by omega) (by omega))
    | httpError code => exact ih (attempt + 1) (fun i h1 h2 => h i (by omega) (by omega))
    | otherExc m => exact ih (attempt + 1) (fun i h1 h2 => h i (by omega) (by omega))

/-- `auto_rename_session` never touches the message log. -/
theorem auto_rename_msgs (c : Completion) (st : St) (sid : String) :
    (auto_rename_session c st sid).msgs = st.msgs := by
  unfold auto_rename_session
  dsimp only
  repeat' split
  all_goals rfl

/-- `auto_rename_session` never touches the vector store. -/
theorem auto_rename_vec (c : Completion) (st : St) (sid : String) :
    (auto_rename_session c st sid).vec = st.vec := by
  unfold auto_rename_session
  dsimp only
  repeat' split
  all_goals rfl

/-- `auto_rename_session` never touches the clock. -/
theorem auto_rename_clock (c : Completion) (st : St) (sid : String) :
    (auto_rename_session c st sid).clock = st.clock := by
  unfold auto_rename_session
  dsimp only
  repeat' split
  all_goals rfl

/-- `add_message` appends exactly one row, timestamped with the clock. -/
theorem add_message_msgs (c : Completion) (st : St) (sid role content : String) :
    (add_message c st sid role content).msgs =
      st.msgs ++ [⟨sid, role, content, st.clock⟩] := by
  unfold add_message db_add_message
  dsimp only
  split
  · rw [auto_rename_msgs]
  · rfl

/-- `add_message` never touches the vector store. -/
theorem add_message_vec (c : Completion) (st : St) (sid role content : String) :
    (add_message c st sid role content).vec = st.vec := by
  unfold add_message db_add_message
  dsimp only
  split
  · rw [auto_rename_vec]
  · rfl

/-- `add_message` advances the clock by one. -/
theorem add_message_clock (c : Completion) (st : St) (sid role content : String) :
    (add_message c st sid role content).clock = st.clock + 1 := by
  unfold add_message db_add_message
  dsimp only
  split
  · rw [auto_rename_clock]
  · rfl

/-- When the new session id is fresh, `create_session` inserts the session
row and immediately appends the welcome message as an assistant-role row. -/
theorem create_session_msgs_of_fresh (c : Completion) (st : St)
    (sid phone : String) (title : Option String)
    (h : st.sessions.any (fun s => s.sid == sid) = false) :
    ((create_session c st sid phone title).1).msgs =
      st.msgs ++ [⟨sid, "assistant", welcome_msg, st.clock + 1⟩] ∧
    (create_session c st sid phone title).2 = sid := by
  unfold create_session
  dsimp only
  rw [if_neg (by simp [h])]
  exact ⟨by rw [add_message_msgs], rfl⟩

/-- `create_session` never touches the vector store. -/
theorem create_session_vec (c : Completion) (st : St) (sid phone : String)
    (title : Option String) :
    ((create_session c st sid phone title).1).vec = st.vec := by
  unfold create_session
  dsimp only
  split
  · rfl
  · rw [add_message_vec]

/-- The head of a list survives appending on the right. -/
theorem head?_append_left {α : Type} (l t : List α) (a : α)
    (h : l.head? = some a) : (l ++ t).head? = some a := by
  cases l with
  | nil => simp at h
  | cons x xs => simpa using h

/-- `collection_name` is injective: distinct session ids name distinct
ChromaDB collections. -/
theorem collection_name_injective (s t : String)
    (h : collection_name s = collection_name t) : s = t := by
  unfold collection_name at h
  have h2 : ("session_" ++ s).data = ("session_" ++ t).data := congrArg String.data h
  rw [String.data_append, String.data_append] at h2
  have h3 := List.append_cancel_left h2
  cases s; cases t; exact congrArg String.mk h3

/-- What the batch loop of `process_file` appends to the message log: only
rows for this session; on success, system-role rows followed by the final
assistant-role completion notification (with a milestone row present for
documents over 100 chunks); on failure, system-role rows only, at least
one. -/
theorem process_batches_spec (c : Completion) (sid fn coll : String)
    (chunks : List Chunk) (total : Nat) (failB : Option Nat) :
    ∀ (starts : List Nat) (st : St) (bi : Nat),
      ∃ notes,
        ((process_batches c sid fn coll chunks total failB st starts bi).1).msgs =
            st.msgs ++ notes ∧
        (∀ m ∈ notes, m.sid = sid) ∧
        ((process_batches c sid fn coll chunks total failB st starts bi).2 = true →
          ∃ mid last, notes = mid ++ [last] ∧ (∀ m ∈ mid, m.role = "system") ∧
            last.sid = sid ∧ last.role = "assistant" ∧
            last.content = process_success_msg fn total ∧
            (100 < total → starts ≠ [] →
              ∃ m ∈ mid, ∃ be, m.content = batch_progress_msg be total)) ∧
        ((process_batches c sid fn coll chunks total failB st starts bi).2 = false →
          notes ≠ [] ∧ ∀ m ∈ notes, m.role = "system") := by
  intro starts
  induction starts with
  | nil =>
    intro st bi
    refine ⟨[⟨sid, "assistant", process_success_msg fn total, st.clock⟩], ?_, ?_, ?_, ?_⟩
    · simp [process_batches, add_message_msgs]
    · intro m hm; simp at hm; subst hm; rfl
    · intro _
      refine ⟨[], ⟨sid, "assistant", process_success_msg fn total, st.clock⟩,
        by simp, by simp, rfl, rfl, rfl, ?_⟩
      intro _ hne; exact absurd rfl hne
    · intro hfalse
      simp [process_batches] at hfalse
  | cons i starts ih =>
    intro st bi
    by_cases hf : failB = some bi
    · refine ⟨[⟨sid, "system", store_failed_msg fn, st.clock⟩], ?_, ?_, ?_, ?_⟩
      · simp [process_batches, hf, add_message_msgs]
      · intro m hm; simp at hm; subst hm; rfl
      · intro htrue
        simp [process_batches, hf] at htrue
      · intro _
        refine ⟨by simp, ?_⟩
        intro m hm; simp at hm; subst hm; rfl
    · have hstep : process_batches c sid fn coll chunks total failB st (i :: starts) bi =
          process_batches c sid fn coll chunks total failB
            (if 100 < total then
              add_message c
                { st with vec := st.vec ++ ((chunks.drop i).take 50).map (fun ch => (coll, ch)) }
                sid "system" (batch_progress_msg (min (i + 50) total) total)
             else
              { st with vec := st.vec ++ ((chunks.drop i).take 50).map (fun ch => (coll, ch)) })
            starts (bi + 1) := by
        conv_lhs => rw [process_batches]
        simp only [hf, if_false, gt_iff_lt]
      set st2 :=
        (if 100 < total then
          add_message c
            { st with vec := st.vec ++ ((chunks.drop i).take 50).map (fun ch => (coll, ch)) }
            sid "system" (batch_progress_msg (min (i + 50) total) total)
         else
          { st with vec := st.vec ++ ((chunks.drop i).take 50).map (fun ch => (coll, ch)) })
        with hst2
      have hP : ∃ P, st2.msgs = st.msgs ++ P ∧
          (∀ m ∈ P, m.sid = sid ∧ m.role = "system") ∧
          (100 < total →
            ∃ m ∈ P, ∃ be, m.content = batch_progress_msg be total) := by
        rw [hst2]
        by_cases ht : 100 < total
        · rw [if_pos ht]
          refine ⟨[⟨sid, "system", batch_progress_msg (min (i + 50) total) total, st.clock⟩],
            by simp [add_message_msgs], ?_, ?_⟩
          · intro m hm; simp at hm; subst hm; exact ⟨rfl, rfl⟩
          · intro _
            exact ⟨⟨sid, "system", batch_progress_msg (min (i + 50) total) total, st.clock⟩,
              by simp, min (i + 50) total, rfl⟩
        · rw [if_neg ht]
          exact ⟨[], by simp, by simp, fun h => absurd h ht⟩
      obtain ⟨P, hPmsgs, hPprops, hPmile⟩ := hP
      obtain ⟨notes', h1, h2, h3, h4⟩ := ih st2 (bi + 1)
      refine ⟨P ++ notes', ?_, ?_, ?_, ?_⟩
      · rw [hstep, h1, hPmsgs, List.append_assoc]
      · intro m hm
        rcases List.mem_append.mp hm with h | h
        · exact (hPprops m h).1
        · exact h2 m h
      · intro htrue
        rw [hstep] at htrue
        obtain ⟨mid', last, hn, hmid, hls, hlr, hlc, _⟩ := h3 htrue
        refine ⟨P ++ mid', last, ?_, ?_, hls, hlr, hlc, ?_⟩
        · rw [hn, List.append_assoc]
        · intro m hm
          rcases List.mem_append.mp hm with h | h
          · exact (hPprops m h).2
          · exact hmid m h
        · intro ht _
          obtain ⟨m, hmP, be, hbe⟩ := hPmile ht
          exact ⟨m, List.mem_append.mpr (Or.inl hmP), be, hbe⟩
      · intro hfalse
        rw [hstep] at hfalse
        obtain ⟨hne, hall⟩ := h4 hfalse
        refine ⟨?_, ?_⟩
        · intro habs
          rcases List.append_eq_nil.mp habs with ⟨_, h⟩
          exact hne h
        · intro m hm
          rcases List.mem_append.mp hm with h | h
          · exact (hPprops m h).2
          · exact hall m h

/-- What the batch loop of `process_file` adds to the vector store: entries
for this collection only, with chunks drawn from the chunk list. -/
theorem process_batches_vec (c : Completion) (sid fn coll : String)
    (chunks : List Chunk) (total : Nat) (failB : Option Nat) :
    ∀ (starts : List Nat) (st : St) (bi : Nat),
      ∃ added,
        ((process_batches c sid fn coll chunks total failB st starts bi).1).vec =
            st.vec ++ added ∧
        ∀ p ∈ added, p.1 = coll ∧ p.2 ∈ chunks := by
  intro starts
  induction starts with
  | nil =>
    intro st bi
    exact ⟨[], by simp [process_batches, add_message_vec], by simp⟩
  | cons i starts ih =>
    intro st bi
    by_cases hf : failB = some bi
    · exact ⟨[], by simp [process_batches, hf, add_message_vec], by simp⟩
    · have hstep : process_batches c sid fn coll chunks total failB st (i :: starts) bi =
          process_batches c sid fn coll chunks total failB
            (if 100 < total then
              add_message c
                { st with vec := st.vec ++ ((chunks.drop i).take 50).map (fun ch => (coll, ch)) }
                sid "system" (batch_progress_msg (min (i + 50) total) total)
             else
              { st with vec := st.vec ++ ((chunks.drop i).take 50).map (fun ch => (coll, ch)) })
            starts (bi + 1) := by
        conv_lhs => rw [process_batches]
        simp only [hf, if_false, gt_iff_lt]
      set st2 :=
        (if 100 < total then
          add_message c
            { st with vec := st.vec ++ ((chunks.drop i).take 50).map (fun ch => (coll, ch)) }
            sid "system" (batch_progress_msg (min (i + 50) total) total)
         else
          { st with vec := st.vec ++ ((chunks.drop i).take 50).map (fun ch => (coll, ch)) })
        with hst2
      have hvec2 : st2.vec = st.vec ++ ((chunks.drop i).take 50).map (fun ch => (coll, ch)) := by
        rw [hst2]
        by_cases ht : 100 < total
        · rw [if_pos ht, add_message_vec]
        · rw [if_neg ht]
      obtain ⟨added', h1, h2⟩ := ih st2 (bi + 1)
      refine ⟨((chunks.drop i).take 50).map (fun ch => (coll, ch)) ++ added', ?_, ?_⟩
      · rw [hstep, h1, hvec2, List.append_assoc]
      · intro p hp
        rcases List.mem_append.mp hp with h | h
        · obtain ⟨ch, hch, hpe⟩ := List.mem_map.mp h
          subst hpe
          exact ⟨rfl, List.drop_subset i chunks (List.take_subset 50 (chunks.drop i) hch)⟩
        · exact h2 p h

/-- Full shape of one `process_file` run on a valid session id: the appended
notifications open with the system-role start entry; on success everything
before the final assistant-role completion entry is system-role (with a
milestone entry present for documents over 100 chunks); on failure every
appended entry is system-role. -/
theorem process_file_spec (c : Completion) (st : St) (sid : String)
    (fo : FileOutcome) (fn : String) (h : isCanonicalUUID sid = true) :
    ∃ notes,
      ((process_file c st sid fo fn).1).msgs = st.msgs ++ notes ∧
      (∀ m ∈ notes, m.sid = sid) ∧
      (∃ rest, notes = ⟨sid, "system", start_processing_msg fn, st.clock⟩ :: rest) ∧
      ((process_file c st sid fo fn).2 = true →
        ∃ mid last, notes = mid ++ [last] ∧ (∀ m ∈ mid, m.role = "system") ∧
          last.role = "assistant" ∧
          ∃ nchunks, last.content = process_success_msg fn nchunks) ∧
      ((process_file c st sid fo fn).2 = false → ∀ m ∈ notes, m.role = "system") ∧
      (∀ texts, fo.split = some texts → 100 < texts.length →
        (process_file c st sid fo fn).2 = true →
        ∃ m ∈ notes, m.role = "system" ∧
          ∃ be, m.content = batch_progress_msg be texts.length) := by
  have hst1 : (add_message c st sid "system" (start_processing_msg fn)).msgs =
      st.msgs ++ [⟨sid, "system", start_processing_msg fn, st.clock⟩] :=
    add_message_msgs c st sid "system" (start_processing_msg fn)
  have hclk1 : (add_message c st sid "system" (start_processing_msg fn)).clock =
      st.clock + 1 := add_message_clock c st sid "system" (start_processing_msg fn)
  simp only [process_file, h, if_true]
  cases hd : fo.docs with
  | none =>
    refine ⟨[⟨sid, "system", start_processing_msg fn, st.clock⟩,
        ⟨sid, "system", load_failed_msg fn, st.clock + 1⟩], ?_, ?_, ?_, ?_, ?_, ?_⟩
    · rw [add_message_msgs, hst1, hclk1, List.append_assoc]
      rfl
    · intro m hm
      simp only [List.mem_cons, List.not_mem_nil, or_false] at hm
      rcases hm with hm | hm <;> subst hm <;> rfl
    · exact ⟨_, rfl⟩
    · intro habs; simp at habs
    · intro _ m hm
      simp only [List.mem_cons, List.not_mem_nil, or_false] at hm
      rcases hm with hm | hm <;> subst hm <;> rfl
    · intro texts _ _ habs; simp at habs
  | some docs =>
    cases hs : fo.split with
    | none =>
      refine ⟨[⟨sid, "system", start_processing_msg fn, st.clock⟩,
          ⟨sid, "system", split_failed_msg fn, st.clock + 1⟩], ?_, ?_, ?_, ?_, ?_, ?_⟩
      · rw [add_message_msgs, hst1, hclk1, List.append_assoc]
        rfl
      · intro m hm
        simp only [List.mem_cons, List.not_mem_nil, or_false] at hm
        rcases hm with hm | hm <;> subst hm <;> rfl
      · exact ⟨_, rfl⟩
      · intro habs; simp at habs
      · intro _ m hm
        simp only [List.mem_cons, List.not_mem_nil, or_false] at hm
        rcases hm with hm | hm <;> subst hm <;> rfl
      · intro texts habs
        exact absurd habs (by simp)
    | some texts =>
      cases texts with
      | nil =>
        refine ⟨[⟨sid, "system", start_processing_msg fn, st.clock⟩,
            ⟨sid, "system", split_empty_msg fn, st.clock + 1⟩], ?_, ?_, ?_, ?_, ?_, ?_⟩
        · rw [add_message_msgs, hst1, hclk1, List.append_assoc]
          rfl
        · intro m hm
          simp only [List.mem_cons, List.not_mem_nil, or_false] at hm
          rcases hm with hm | hm <;> subst hm <;> rfl
        · exact ⟨_, rfl⟩
        · intro habs; simp at habs
        · intro _ m hm
          simp only [List.mem_cons, List.not_mem_nil, or_false] at hm
          rcases hm with hm | hm <;> subst hm <;> rfl
        · intro texts' habs hlen
          have : texts' = [] := by simpa using habs.symm
          subst this
          simp at hlen
      | cons t ts =>
        by_cases hcoll : fo.collOk
        · simp only [hcoll, if_true]
          obtain ⟨notesB, hB1, hB2, hB3, hB4⟩ :=
            process_batches_spec c sid fn (collection_name sid)
              ((t :: ts).enum.map (fun it => Chunk.mk it.2 fn it.1 sid))
              (t :: ts).length fo.failBatch
              (batch_starts (t :: ts).length 50)
              (add_message c st sid "system" (start_processing_msg fn)) 0
          refine ⟨⟨sid, "system", start_processing_msg fn, st.clock⟩ :: notesB,
            ?_, ?_, ?_, ?_, ?_, ?_⟩
          · rw [hB1, hst1, List.append_assoc]
            rfl
          · intro m hm
            rcases List.mem_cons.mp hm with hm | hm
            · subst hm; rfl
            · exact hB2 m hm
          · exact ⟨notesB, rfl⟩
          · intro htrue
            obtain ⟨midB, last, hn, hmid, hls, hlr, hlc, _⟩ := hB3 htrue
            refine ⟨⟨sid, "system", start_processing_msg fn, st.clock⟩ :: midB, last, ?_, ?_,
              hlr, (t :: ts).length, hlc⟩
            · rw [hn]; rfl
            · intro m hm
              rcases List.mem_cons.mp hm with hm | hm
              · subst hm; rfl
              · exact hmid m hm
          · intro hfalse m hm
            rcases List.mem_cons.mp hm with hm | hm
            · subst hm; rfl
            · exact (hB4 hfalse).2 m hm
          · intro texts' hsome hlen htrue
            have hte : texts' = t :: ts := by simpa using hsome.symm
            subst hte
            obtain ⟨midB, last, hn, hmid, hls, hlr, hlc, hmile⟩ := hB3 htrue
            have hstarts : batch_starts (t :: ts).length 50 ≠ [] := by
              intro habs
              have hl : (batch_starts (t :: ts).length 50).length = 0 := by
                rw [habs]; rfl
              simp only [batch_starts, List.length_map, List.length_range] at hl
              omega
            obtain ⟨m, hmmem, be, hbe⟩ := hmile hlen hstarts
            refine ⟨m, ?_, hmid m hmmem, be, hbe⟩
            rw [hn]
            exact List.mem_cons.mpr (Or.inr (List.mem_append.mpr (Or.inl hmmem)))
        · replace hcoll : fo.collOk = false := by simpa using hcoll
          simp only [hcoll]
          rw [if_neg Bool.false_ne_true]
          refine ⟨[⟨sid, "system", start_processing_msg fn, st.clock⟩,
              ⟨sid, "system", coll_failed_msg, st.clock + 1⟩], ?_, ?_, ?_, ?_, ?_, ?_⟩
          · rw [add_message_msgs, hst1, hclk1, List.append_assoc]
            rfl
          · intro m hm
            simp only [List.mem_cons, List.not_mem_nil, or_false] at hm
            rcases hm with hm | hm <;> subst hm <;> rfl
          · exact ⟨_, rfl⟩
          · intro habs; simp at habs
          · intro _ m hm
            simp only [List.mem_cons, List.not_mem_nil, or_false] at hm
            rcases hm with hm | hm <;> subst hm <;> rfl
          · intro texts' _ _ habs; simp at habs

/-! ## Claim theorems -/

/-- C2: `IntentRouter.route` is total on every intent code, user text,
session id and history: an unmapped code yields the static clarification
message, a handler that returns a string yields that string, and a handler
that raises yields the static apology message — an exception never
propagates to the caller. -/
theorem route_never_raises (env : HandlerEnv) (intent user_input sid : String)
    (history : List (String × String)) :
    (intent_handlers intent = none ∧
      route env intent user_input sid history = unknown_intent_msg) ∨
    (∃ handler, intent_handlers intent = some handler ∧
      ((∃ r, handler env user_input sid history = .ok r ∧
          route env intent user_input sid history = r) ∨
       (∃ e, handler env user_input sid history = .error e ∧
          route env intent user_input sid history = router_error_msg))) := by
  cases hh : intent_handlers intent with
  | none => exact Or.inl ⟨rfl, by simp [route, hh]⟩
  | some handler =>
    refine Or.inr ⟨handler, rfl, ?_⟩
    cases hr : handler env user_input sid history with
    | ok r => exact Or.inl ⟨r, rfl, by simp [route, hh, hr]⟩
    | error e => exact Or.inr ⟨e, rfl, by simp [route, hh, hr]⟩

/-- C3: `IntentRecognizer.recognize` always returns a member of the fixed
valid intent set; an exception from the completion call yields `"D"`, and a
completion output that after trimming and uppercasing is not in the set
yields `"D"`. -/
theorem recognize_closed_range (complete : Completion) (user_input : String) :
    recognize complete user_input ∈ VALID_INTENTS ∧
    (∀ e, complete (INTENT_PROMPT user_input) = .error e →
      recognize complete user_input = "D") ∧
    (pyUpper (pyStrip (generate_text complete (INTENT_PROMPT user_input))) ∉ VALID_INTENTS →
      recognize complete user_input = "D") := by
  refine ⟨?_, ?_, ?_⟩
  · unfold recognize classify_intent
    by_cases hx :
        pyUpper (pyStrip (generate_text complete (INTENT_PROMPT user_input))) ∈ VALID_INTENTS
    · simp only [if_pos hx]
      exact hx
    · simp only [if_neg hx]
      decide
  · intro e he
    unfold recognize classify_intent
    cases e with
    | apiError m =>
      have hg : generate_text complete (INTENT_PROMPT user_input) = llm_api_error_msg := by
        unfold generate_text; rw [he]
      rw [hg]; decide
    | other m =>
      have hg : generate_text complete (INTENT_PROMPT user_input) = llm_error_msg := by
        unfold generate_text; rw [he]
      rw [hg]; decide
  · intro hx
    unfold recognize classify_intent
    simp only [if_neg hx]
    decide

/-- C3 witness: a raising completion call and a garbage completion output
both classify as `"D"` on concrete inputs. -/
theorem recognize_closed_range_witness :
    recognize (fun _ => .error (.other "boom")) "hello" = "D" ∧
    recognize (fun _ => .ok "Z!") "hello" = "D" :=
  ⟨(recognize_closed_range (fun _ => .error (.other "boom")) "hello").2.1
      (.other "boom") rfl,
   (recognize_closed_range (fun _ => .ok "Z!") "hello").2.2 (by decide)⟩

/-- The code-point helpers on concrete values behave as Python does. -/
theorem pyStrip_pyUpper_examples :
    pyStrip "  a  " = "a" ∧ pyUpper " d" = " D" ∧ pyTake 2 "abcd" = "ab" ∧
    pyRemoveChar '\x22' "a\x22b" = "ab" := by decide

/-- C9: the fixed dispatch table of `IntentRouter`: A and K invoke the RAG
query (with their internal course/file error fallbacks), C the daily-chat
generator, E/F/J web-search summarization, G the professional comparison
prompt, H the professional evaluation prompt; every other code — including
the unrecognized code `"D"` and the handler-less valid code `"B"` — yields
the static clarification message. -/
theorem route_dispatch_table (env : HandlerEnv) (user_input sid : String)
    (history : List (String × String)) :
    route env "A" user_input sid history =
      (match env.ragQuery user_input sid with
       | .ok r => r
       | .error _ => course_error_msg) ∧
    route env "K" user_input sid history =
      (match env.ragQuery user_input sid with
       | .ok r => r
       | .error _ => file_error_msg) ∧
    route env "C" user_input sid history =
      (match env.dailyChatGen user_input (history.map (fun p => (p.1, p.2))) with
       | .ok r => r
       | .error _ => router_error_msg) ∧
    route env "E" user_input sid history =
      (match env.webSummarize user_input with
       | .ok r => r
       | .error _ => router_error_msg) ∧
    route env "F" user_input sid history =
      (match env.webSummarize user_input with
       | .ok r => r
       | .error _ => router_error_msg) ∧
    route env "J" user_input sid history =
      (match env.webSummarize user_input with
       | .ok r => r
       | .error _ => router_error_msg) ∧
    route env "G" user_input sid history =
      (match env.answerComparison user_input with
       | .ok r => r
       | .error _ => router_error_msg) ∧
    route env "H" user_input sid history =
      (match env.answerEvaluation user_input with
       | .ok r => r
       | .error _ => router_error_msg) ∧
    (∀ intent, intent ∉ (["A", "C", "E", "F", "G", "H", "J", "K"] : List String) →
      route env intent user_input sid history = unknown_intent_msg) := by
  have hA : intent_handlers "A" = some handle_course_question := by
    simp [intent_handlers]
  have hC : intent_handlers "C" = some handle_daily_chat := by
    simp [intent_handlers]
  have hE : intent_handlers "E" = some handle_definition_question := by
    simp [intent_handlers]
  have hF : intent_handlers "F" = some handle_method_question := by
    simp [intent_handlers]
  have hG : intent_handlers "G" = some handle_comparison_question := by
    simp [intent_handlers]
  have hH : intent_handlers "H" = some handle_evaluation_question := by
    simp [intent_handlers]
  have hJ : intent_handlers "J" = some handle_other_question := by
    simp [intent_handlers]
  have hK : intent_handlers "K" = some handle_file_question := by
    simp [intent_handlers]
  refine ⟨?_, ?_, ?_, ?_, ?_, ?_, ?_, ?_, ?_⟩
  · simp only [route, hA, handle_course_question]
    cases env.ragQuery user_input sid <;> rfl
  · simp only [route, hK, handle_file_question]
    cases env.ragQuery user_input sid <;> rfl
  · simp only [route, hC, handle_daily_chat]
  · simp only [route, hE, handle_definition_question]
  · simp only [route, hF, handle_method_question]
  · simp only [route, hJ, handle_other_question]
  · simp only [route, hG, handle_comparison_question]
  · simp only [route, hH, handle_evaluation_question]
  · intro intent hmem
    simp only [List.mem_cons, List.not_mem_nil, or_false, not_or] at hmem
    obtain ⟨hA, hC, hE, hF, hG, hH, hJ, hK⟩ := hmem
    simp [route, intent_handlers, hA, hC, hE, hF, hG, hH, hJ, hK]

/-- C9 witness: on a concrete environment, the unrecognized code `"D"` and
the handler-less valid code `"B"` both yield the clarification message. -/
theorem route_dispatch_table_witness :
    route env0 "D" "什么" uuidA [] = unknown_intent_msg ∧
    route env0 "B" "什么" uuidA [] = unknown_intent_msg :=
  ⟨(route_dispatch_table env0 "什么" uuidA []).2.2.2.2.2.2.2.2 "D" (by decide),
   (route_dispatch_table env0 "什么" uuidA []).2.2.2.2.2.2.2.2 "B" (by decide)⟩

/-- C10: with no API key configured, `WebSearch.search` returns the fixed
unavailability string without consulting the provider (the result is
independent of the provider oracle, i.e. zero attempts and zero retries),
and `summarize_search_results` still returns the string the generation
service builds from that fixed text, never an exception. -/
theorem search_no_api_key (complete : Completion) (query : String)
    (provider provider2 : String → Nat → SearchAttempt) :
    search "" query provider 5 3 = no_key_msg ∧
    search "" query provider 5 3 = search "" query provider2 5 3 ∧
    summarize_search_results complete "" provider query =
      generate_text complete (summarize_prompt query no_key_msg) := by
  refine ⟨rfl, rfl, ?_⟩
  unfold summarize_search_results search
  simp

/-- C6 counterexample: when the provider times out on every attempt,
`search` does return the literal failure marker, but
`summarize_search_results` does not return that marker to its caller — it
returns the generation service's output built from it. -/
theorem summarize_not_literal_marker :
    search "test-key" "什么是机器学习" providerTimeout 5 3 = search_failed_msg ∧
    summarize_search_results (fun _ => .ok "机器学习是一种人工智能方法。")
      "test-key" providerTimeout "什么是机器学习" ≠ search_failed_msg := by
  constructor
  · rfl
  · decide

/-- C6 (amended): when every configured attempt fails (the initial attempt
plus the 3 retries, attempts 1 through 4), `search` returns the literal
failure-marker string rather than raising, and `summarize_search_results`
returns the string the generation service builds from a prompt embedding
that marker — not the marker itself. -/
theorem search_exhaustion (complete : Completion) (api_key : String)
    (provider : String → Nat → SearchAttempt) (query : String) :
    api_key ≠ "" →
    (∀ i, 1 ≤ i → i ≤ 4 → isFailureAttempt (provider query i) = true) →
    search api_key query provider 5 3 = search_failed_msg ∧
    summarize_search_results complete api_key provider query =
      generate_text complete (summarize_prompt query search_failed_msg) := by
  intro hkey hfail
  have hs : search api_key query provider 5 3 = search_failed_msg := by
    unfold search
    rw [if_neg hkey]
    exact searchLoop_all_fail provider query 5 4 1 (fun i h1 h2 => hfail i h1 (by omega))
  refine ⟨hs, ?_⟩
  unfold summarize_search_results
  rw [hs]

/-- C6 witness: a concrete always-timing-out provider with a non-empty key
exhausts to the marker, and the summarizer output is the generation
service's. -/
theorem search_exhaustion_witness :
    search "test-key" "什么是AI" providerTimeout 5 3 = search_failed_msg ∧
    summarize_search_results complete0 "test-key" providerTimeout "什么是AI" =
      generate_text complete0 (summarize_prompt "什么是AI" search_failed_msg) :=
  search_exhaustion complete0 "test-key" providerTimeout "什么是AI"
    (by decide) (fun i _ _ => rfl)

/-- C7 counterexample: on a successful ingestion the terminal notification —
the last message appended — has role `"assistant"`, not `"system"` as the
claim states for terminal success. -/
theorem process_file_success_role_not_system :
    (process_file complete0 St.init uuidA fileOutcomeOk "notes.pdf").2 = true ∧
    ((process_file complete0 St.init uuidA fileOutcomeOk "notes.pdf").1.msgs.getLast?).map
        (fun m => (m.role, m.content)) =
      some ("assistant", process_success_msg "notes.pdf" 2) ∧
    "assistant" ≠ "system" := by
  refine ⟨by decide, by decide, by decide⟩

/-- C7 (amended): for every file processed under a valid session id,
notifications are appended to that session's message log: the run opens with
a system-role start entry; on batch milestones (documents over 100 chunks) a
system-role progress entry appears; on terminal failure every appended entry
is system-role; on terminal success the final appended entry is the
completion notification with role `"assistant"` (not `"system"`), everything
before it being system-role. -/
theorem process_file_status_notifications (c : Completion) (st : St) (sid : String)
    (fo : FileOutcome) (fn : String) (h : isCanonicalUUID sid = true) :
    ∃ notes,
      ((process_file c st sid fo fn).1).msgs = st.msgs ++ notes ∧
      (∀ m ∈ notes, m.sid = sid) ∧
      (∃ rest, notes = ⟨sid, "system", start_processing_msg fn, st.clock⟩ :: rest) ∧
      ((process_file c st sid fo fn).2 = true →
        ∃ mid last, notes = mid ++ [last] ∧ (∀ m ∈ mid, m.role = "system") ∧
          last.role = "assistant" ∧
          ∃ nchunks, last.content = process_success_msg fn nchunks) ∧
      ((process_file c st sid fo fn).2 = false → ∀ m ∈ notes, m.role = "system") ∧
      (∀ texts, fo.split = some texts → 100 < texts.length →
        (process_file c st sid fo fn).2 = true →
        ∃ m ∈ notes, m.role = "system" ∧
          ∃ be, m.content = batch_progress_msg be texts.length) :=
  process_file_spec c st sid fo fn h

/-- C7 witness: one successful concrete run, with the start entry leading the
appended notifications. -/
theorem process_file_status_notifications_witness :
    isCanonicalUUID uuidA = true ∧
    ∃ notes,
      ((process_file complete0 St.init uuidA fileOutcomeOk "notes.pdf").1).msgs =
          St.init.msgs ++ notes ∧
      ∃ rest, notes =
        ⟨uuidA, "system", start_processing_msg "notes.pdf", St.init.clock⟩ :: rest :=
  ⟨by decide, by
    obtain ⟨notes, h1, _, h3, _⟩ :=
      process_file_status_notifications complete0 St.init uuidA fileOutcomeOk "notes.pdf"
        (by decide)
    exact ⟨notes, h1, h3⟩⟩

/-- C4: in the flow the code itself sets up — `create_session` (which appends
the welcome message), then the first user turn, then the first assistant
reply — the auto-rename trigger of `add_message` never fires: the message
count is 3 (not 2) when the first assistant reply is persisted, and it is 2
only after the user turn, when no check runs.  The rename-invocation log
stays empty. -/
theorem auto_rename_never_fires (complete : Completion) (sid phone text reply : String)
    (title : Option String) :
    (add_message complete
        (add_message complete (create_session complete St.init sid phone title).1 sid "user" text)
        sid "assistant" reply).renameInvocations = [] ∧
    (get_messages
        (add_message complete
          (add_message complete (create_session complete St.init sid phone title).1
            sid "user" text)
          sid "assistant" reply) sid).map (fun m => (m.role, m.content)) =
      [("assistant", welcome_msg), ("user", text), ("assistant", reply)] := by
  constructor
  · simp [create_session, add_message, db_add_message, get_messages, auto_rename_session,
      St.init, count_sessions, get_sessions]
  · simp [create_session, add_message, db_add_message, get_messages, auto_rename_session,
      St.init, count_sessions, get_sessions]

/-! ## More supporting lemmas: trace reasoning -/

/-- `create_session` only ever appends to the message log. -/
theorem create_session_msgs_ext (c : Completion) (st : St) (sid phone : String)
    (title : Option String) :
    ∃ tail, ((create_session c st sid phone title).1).msgs = st.msgs ++ tail := by
  unfold create_session
  dsimp only
  split
  · exact ⟨[], (List.append_nil _).symm⟩
  · exact ⟨_, by rw [add_message_msgs]⟩

/-- `process_file` only ever appends to the message log. -/
theorem process_file_msgs_ext (c : Completion) (st : St) (sid : String)
    (fo : FileOutcome) (fn : String) :
    ∃ tail, ((process_file c st sid fo fn).1).msgs = st.msgs ++ tail := by
  by_cases h : isCanonicalUUID sid = true
  · obtain ⟨notes, h1, _⟩ := process_file_spec c st sid fo fn h
    exact ⟨notes, h1⟩
  · unfold process_file
    rw [if_neg h]
    exact ⟨[], (List.append_nil _).symm⟩

/-- Appending through `add_message` preserves being an extension of a base
log. -/
theorem msgs_ext_add (c : Completion) (st' st : St) (sid role content : String)
    (h : ∃ t, st'.msgs = st.msgs ++ t) :
    ∃ t, (add_message c st' sid role content).msgs = st.msgs ++ t := by
  obtain ⟨t, ht⟩ := h
  exact ⟨t ++ [⟨sid, role, content, st'.clock⟩],
    by rw [add_message_msgs, ht, List.append_assoc]⟩

/-- `process_message` only ever appends to the message log. -/
theorem process_message_msgs_ext (o : Oracles) (st : St) (text sid phone freshSid : String) :
    ∃ tail, ((process_message o st text sid phone freshSid).1).msgs = st.msgs ++ tail := by
  unfold process_message
  dsimp only
  split
  · exact ⟨[], (List.append_nil _).symm⟩
  · apply msgs_ext_add
    apply msgs_ext_add
    split
    · exact ⟨[], (List.append_nil _).symm⟩
    · exact create_session_msgs_ext o.complete st freshSid phone none

/-- Every event only ever appends to the message log. -/
theorem step_msgs_ext (o : Oracles) (st : St) (e : Event) :
    ∃ tail, (step o st e).msgs = st.msgs ++ tail := by
  cases e with
  | createSession sid phone title => exact create_session_msgs_ext o.complete st sid phone title
  | addMessage sid role content => exact ⟨_, add_message_msgs o.complete st sid role content⟩
  | processFile sid fo fn => exact process_file_msgs_ext o.complete st sid fo fn
  | processMessage text sid phone freshSid =>
    exact process_message_msgs_ext o st text sid phone freshSid

/-- The head of a session's message log survives any trace of events. -/
theorem runTrace_head (o : Oracles) (sid : String) (r : MsgRow) :
    ∀ (evs : List Event) (st : St), (get_messages st sid).head? = some r →
      (get_messages (runTrace o st evs) sid).head? = some r := by
  intro evs
  induction evs with
  | nil => intro st h; exact h
  | cons e evs ih =>
    intro st h
    apply ih
    obtain ⟨tail, ht⟩ := step_msgs_ext o st e
    unfold get_messages at h ⊢
    rw [ht, List.filter_append]
    exact head?_append_left _ _ _ h

/-- C5: for every session successfully created by `create_session` — the
session-row INSERT succeeds (the id is fresh) and, as `uuid.uuid4()`
guarantees, no message row exists under the id — the first message of the
session's timestamp-ordered log is the welcome message with role
`"assistant"`, appended synchronously by `create_session` itself, and it
stays first under any later trace of events
(`get_messages_ts_sorted` below shows the log's timestamp order is exactly
this insertion order). -/
theorem welcome_message_first (o : Oracles) (st : St) (sid phone : String)
    (title : Option String) (evs : List Event)
    (hfresh : st.sessions.any (fun s => s.sid == sid) = false)
    (hnomsg : get_messages st sid = []) :
    ((get_messages (runTrace o (create_session o.complete st sid phone title).1 evs) sid).head?).map
        (fun m => (m.role, m.content)) = some ("assistant", welcome_msg) := by
  have hc := (create_session_msgs_of_fresh o.complete st sid phone title hfresh).1
  have hg : get_messages (create_session o.complete st sid phone title).1 sid =
      [⟨sid, "assistant", welcome_msg, st.clock + 1⟩] := by
    unfold get_messages at hnomsg ⊢
    rw [hc, List.filter_append, hnomsg]
    simp
  have hh : (get_messages (create_session o.complete st sid phone title).1 sid).head? =
      some ⟨sid, "assistant", welcome_msg, st.clock + 1⟩ := by rw [hg]; rfl
  rw [runTrace_head o sid _ evs _ hh]
  rfl

/-- C5 witness: a concrete fresh session keeps the welcome message first
after a later user message. -/
theorem welcome_message_first_witness :
    (St.init.sessions.any (fun s => s.sid == uuidA) = false) ∧
    get_messages St.init uuidA = [] ∧
    ((get_messages (runTrace o0 (create_session o0.complete St.init uuidA "13800138000" none).1
        [.addMessage uuidA "user" "你好"]) uuidA).head?).map
      (fun m => (m.role, m.content)) = some ("assistant", welcome_msg) :=
  ⟨rfl, rfl,
   welcome_message_first o0 St.init uuidA "13800138000" none
     [.addMessage uuidA "user" "你好"] rfl rfl⟩

/-! ## More supporting lemmas: vector-store invariant -/

/-- `process_message` never touches the vector store. -/
theorem process_message_vec (o : Oracles) (st : St) (text sid phone freshSid : String) :
    ((process_message o st text sid phone freshSid).1).vec = st.vec := by
  unfold process_message
  dsimp only
  split
  · rfl
  · rw [add_message_vec, add_message_vec]
    split
    · rfl
    · rw [create_session_vec]

/-- What `process_file` adds to the vector store: entries in the collection
named by the session id, whose chunks carry that id in their metadata. -/
theorem process_file_vec (c : Completion) (st : St) (sid : String)
    (fo : FileOutcome) (fn : String) :
    ∃ added, ((process_file c st sid fo fn).1).vec = st.vec ++ added ∧
      ∀ p ∈ added, p.1 = collection_name sid ∧ p.2.session_id = sid := by
  by_cases h : isCanonicalUUID sid = true
  · simp only [process_file, h, if_true]
    cases hd : fo.docs with
    | none => exact ⟨[], by rw [add_message_vec, add_message_vec, List.append_nil], by simp⟩
    | some docs =>
      cases hs : fo.split with
      | none => exact ⟨[], by rw [add_message_vec, add_message_vec, List.append_nil], by simp⟩
      | some texts =>
        cases texts with
        | nil => exact ⟨[], by rw [add_message_vec, add_message_vec, List.append_nil], by simp⟩
        | cons t ts =>
          by_cases hcoll : fo.collOk
          · simp only [hcoll, if_true]
            obtain ⟨added, h1, h2⟩ :=
              process_batches_vec c sid fn (collection_name sid)
                ((t :: ts).enum.map (fun it => Chunk.mk it.2 fn it.1 sid))
                (t :: ts).length fo.failBatch
                (batch_starts (t :: ts).length 50)
                (add_message c st sid "system" (start_processing_msg fn)) 0
            refine ⟨added, ?_, ?_⟩
            · rw [h1, add_message_vec]
            · intro p hp
              obtain ⟨hc1, hc2⟩ := h2 p hp
              obtain ⟨it, _, hit⟩ := List.mem_map.mp hc2
              refine ⟨hc1, ?_⟩
              rw [← hit]
          · replace hcoll : fo.collOk = false := by simpa using hcoll
            simp only [hcoll]
            rw [if_neg Bool.false_ne_true]
            exact ⟨[], by rw [add_message_vec, add_message_vec, List.append_nil], by simp⟩
  · unfold process_file
    rw [if_neg h]
    exact ⟨[], by rw [List.append_nil], by simp⟩

/-- Every event preserves the collection-keying invariant. -/
theorem vecWF_step (o : Oracles) (st : St) (e : Event) (h : VecWF st) :
    VecWF (step o st e) := by
  cases e with
  | createSession sid phone title =>
    intro p hp
    rw [step, create_session_vec] at hp
    exact h p hp
  | addMessage sid role content =>
    intro p hp
    rw [step, add_message_vec] at hp
    exact h p hp
  | processFile sid fo fn =>
    intro p hp
    obtain ⟨added, h1, h2⟩ := process_file_vec o.complete st sid fo fn
    rw [step, h1] at hp
    rcases List.mem_append.mp hp with hm | hm
    · exact h p hm
    · obtain ⟨hc1, hc2⟩ := h2 p hm
      rw [hc1, hc2]
  | processMessage text sid phone freshSid =>
    intro p hp
    rw [step, process_message_vec] at hp
    exact h p hp

/-- The collection-keying invariant holds in every reachable state. -/
theorem vecWF_runTrace (o : Oracles) (evs : List Event) :
    VecWF (runTrace o St.init evs) := by
  have hgen : ∀ (evs : List Event) (st : St), VecWF st → VecWF (runTrace o st evs) := by
    intro evs
    induction evs with
    | nil => intro st h; exact h
    | cons e evs ih => intro st h; exact ih (step o st e) (vecWF_step o st e h)
  exact hgen evs St.init (by intro p hp; simp [St.init] at hp)

/-- C1: session isolation of retrieval.  In any state reachable by ingesting
documents (and any other events) from the empty store, a vector query for
session A returns only chunks whose ingestion session id is A; in
particular, for any distinct session B, no chunk ingested under B is ever
returned — the collection named by the session id is the sole store queried,
with no cross-session fallback. -/
theorem rag_session_isolation (o : Oracles) (evs : List Event)
    (dist : String → String → Nat) (query A B : String) (top_k : Nat)
    (hAB : A ≠ B) :
    ∀ ch ∈ retrieveChunks dist (runTrace o St.init evs) query A top_k,
      ch.session_id = A ∧ ch.session_id ≠ B := by
  intro ch hch
  have hwf := vecWF_runTrace o evs
  unfold retrieveChunks at hch
  by_cases hA : isCanonicalUUID A = true
  · rw [if_pos hA] at hch
    dsimp only at hch
    have h1 : ch ∈ ((runTrace o St.init evs).vec.filter
        (fun nc => nc.1 == collection_name A)).map (fun nc => nc.2) :=
      (List.perm_insertionSort _ _).mem_iff.mp (List.mem_of_mem_take hch)
    obtain ⟨p, hpmem, hpe⟩ := List.mem_map.mp h1
    obtain ⟨hpv, hpn⟩ := List.mem_filter.mp hpmem
    have hname : p.1 = collection_name A := by simpa using hpn
    have hinv : p.1 = collection_name p.2.session_id := hwf p hpv
    have hsid : p.2.session_id = A :=
      collection_name_injective _ _ (hinv.symm.trans hname)
    subst hpe
    exact ⟨hsid, fun hb => hAB ((hsid.symm.trans hb))⟩
  · rw [if_neg hA] at hch
    simp at hch

/-- C1 witness: after ingesting one file under session B and one under
session A, retrieval for A returns a chunk, and that chunk's ingestion
session is A, not B. -/
theorem rag_session_isolation_witness :
    uuidA ≠ uuidB ∧
    (⟨"chunk one", "a.pdf", 0, uuidA⟩ : Chunk) ∈
      retrieveChunks dist0
        (runTrace o0 St.init
          [.processFile uuidB fileOutcomeOk "b.pdf", .processFile uuidA fileOutcomeOk "a.pdf"])
        "什么是AI" uuidA 5 ∧
    ((⟨"chunk one", "a.pdf", 0, uuidA⟩ : Chunk).session_id = uuidA ∧
      (⟨"chunk one", "a.pdf", 0, uuidA⟩ : Chunk).session_id ≠ uuidB) :=
  ⟨by decide, by decide,
   rag_session_isolation o0
     [.processFile uuidB fileOutcomeOk "b.pdf", .processFile uuidA fileOutcomeOk "a.pdf"]
     dist0 "什么是AI" uuidA uuidB 5 (by decide) _ (by decide)⟩

/-- C8: when the caller-supplied session id is not a well-formed UUID,
`process_message` does create a fresh session — but then persists the user
turn and the assistant turn under the ORIGINAL invalid identifier and
returns it; the fresh session ends the interaction holding only its welcome
message.  (The claim says the fresh session is used for the rest of the
interaction and receives the persisted turns.) -/
theorem process_message_invalid_sid (o : Oracles) (text sid phone freshSid : String)
    (hsid : isCanonicalUUID sid = false)
    (htext : ¬ pyStrip text = "")
    (hfresh : isCanonicalUUID freshSid = true) :
    (process_message o St.init text sid phone freshSid).2 = sid ∧
    (get_messages (process_message o St.init text sid phone freshSid).1 freshSid).map
        (fun m => (m.role, m.content)) = [("assistant", welcome_msg)] ∧
    ∃ reply,
      (get_messages (process_message o St.init text sid phone freshSid).1 sid).map
          (fun m => (m.role, m.content)) = [("user", pyStrip text), ("assistant", reply)] := by
  have hnesf : sid ≠ freshSid := by
    intro he
    rw [he, hfresh] at hsid
    simp at hsid
  have hbsf : (sid == freshSid) = false := beq_eq_false_iff_ne.mpr hnesf
  have hbfs : (freshSid == sid) = false := beq_eq_false_iff_ne.mpr (Ne.symm hnesf)
  have hvmsgs : ((create_session o.complete St.init freshSid phone none).1).msgs =
      [⟨freshSid, "assistant", welcome_msg, 1⟩] := by
    have := (create_session_msgs_of_fresh o.complete St.init freshSid phone none rfl).1
    simpa [St.init] using this
  have hpm : process_message o St.init text sid phone freshSid =
      (add_message o.complete
        (add_message o.complete (create_session o.complete St.init freshSid phone none).1
          sid "user" (pyStrip text))
        sid "assistant"
        (route o.env (recognize o.complete (pyStrip text)) (pyStrip text) sid
          ((get_messages
              (add_message o.complete (create_session o.complete St.init freshSid phone none).1
                sid "user" (pyStrip text)) sid).map (fun m => (m.role, m.content)))),
       sid) := by
    unfold process_message
    dsimp only
    rw [if_neg htext]
    simp only [hsid]
    rw [if_neg Bool.false_ne_true]
  rw [hpm]
  set stv := (create_session o.complete St.init freshSid phone none).1 with hstv
  set R := route o.env (recognize o.complete (pyStrip text)) (pyStrip text) sid
      ((get_messages (add_message o.complete stv sid "user" (pyStrip text)) sid).map
        (fun m => (m.role, m.content))) with hR
  have hfinal : (add_message o.complete
      (add_message o.complete stv sid "user" (pyStrip text)) sid "assistant" R).msgs =
      [⟨freshSid, "assistant", welcome_msg, 1⟩, ⟨sid, "user", pyStrip text, stv.clock⟩,
       ⟨sid, "assistant", R, stv.clock + 1⟩] := by
    rw [add_message_msgs, add_message_msgs, add_message_clock, hvmsgs]
    rfl
  refine ⟨rfl, ?_, ?_⟩
  · unfold get_messages
    rw [hfinal]
    simp [hbsf]
  · refine ⟨R, ?_⟩
    unfold get_messages
    rw [hfinal]
    simp [hbfs, beq_self_eq_true]

/-! ## Timestamp order

`DatabaseManager.get_messages` sorts by the `ts` column.  The lemmas below
show stored timestamps strictly increase with insertion order in every
reachable state, so the insertion-order filter used by `get_messages` is
exactly the `ORDER BY ts` result. -/

/-- A state with the same log and a clock at least as large stays
timestamp-sound. -/
theorem tsWF_fields (st st' : St) (h : TsWF st) (hm : st'.msgs = st.msgs)
    (hc : st.clock ≤ st'.clock) : TsWF st' := by
  obtain ⟨hp, hb⟩ := h
  refine ⟨hm ▸ hp, ?_⟩
  rw [hm]
  intro m hmem
  exact Nat.lt_of_lt_of_le (hb m hmem) hc

/-- `add_message` preserves timestamp soundness. -/
theorem tsWF_add_message (c : Completion) (st : St) (sid role content : String)
    (h : TsWF st) : TsWF (add_message c st sid role content) := by
  obtain ⟨hp, hb⟩ := h
  constructor
  · rw [add_message_msgs]
    apply List.pairwise_append.mpr
    refine ⟨hp, List.pairwise_singleton _ _, ?_⟩
    intro a ha b hbm
    simp only [List.mem_singleton] at hbm
    subst hbm
    exact hb a ha
  · rw [add_message_msgs, add_message_clock]
    intro m hm
    rcases List.mem_append.mp hm with hmem | hmem
    · exact Nat.lt_succ_of_lt (hb m hmem)
    · simp only [List.mem_singleton] at hmem
      subst hmem
      exact Nat.lt_succ_self _

/-- `create_session` preserves timestamp soundness. -/
theorem tsWF_create_session (c : Completion) (st : St) (sid phone : String)
    (title : Option String) (h : TsWF st) :
    TsWF ((create_session c st sid phone title).1) := by
  unfold create_session
  dsimp only
  split
  · exact h
  · exact tsWF_add_message _ _ _ _ _ (tsWF_fields st _ h rfl (Nat.le_succ _))

/-- The batch loop preserves timestamp soundness. -/
theorem tsWF_process_batches (c : Completion) (sid fn coll : String)
    (chunks : List Chunk) (total : Nat) (failB : Option Nat) :
    ∀ (starts : List Nat) (st : St) (bi : Nat), TsWF st →
      TsWF ((process_batches c sid fn coll chunks total failB st starts bi).1) := by
  intro starts
  induction starts with
  | nil =>
    intro st bi h
    exact tsWF_add_message _ _ _ _ _ h
  | cons i starts ih =>
    intro st bi h
    by_cases hf : failB = some bi
    · have : process_batches c sid fn coll chunks total failB st (i :: starts) bi =
          (add_message c st sid "system" (store_failed_msg fn), false) := by
        rw [process_batches, if_pos hf]
      rw [this]
      exact tsWF_add_message _ _ _ _ _ h
    · have hstep : process_batches c sid fn coll chunks total failB st (i :: starts) bi =
          process_batches c sid fn coll chunks total failB
            (if 100 < total then
              add_message c
                { st with vec := st.vec ++ ((chunks.drop i).take 50).map (fun ch => (coll, ch)) }
                sid "system" (batch_progress_msg (min (i + 50) total) total)
             else
              { st with vec := st.vec ++ ((chunks.drop i).take 50).map (fun ch => (coll, ch)) })
            starts (bi + 1) := by
        conv_lhs => rw [process_batches]
        simp only [hf, if_false, gt_iff_lt]
      rw [hstep]
      apply ih
      by_cases ht : 100 < total
      · rw [if_pos ht]
        exact tsWF_add_message _ _ _ _ _ (tsWF_fields st _ h rfl (Nat.le_refl _))
      · rw [if_neg ht]
        exact tsWF_fields st _ h rfl (Nat.le_refl _)

/-- `process_file` preserves timestamp soundness. -/
theorem tsWF_process_file (c : Completion) (st : St) (sid : String)
    (fo : FileOutcome) (fn : String) (h : TsWF st) :
    TsWF ((process_file c st sid fo fn).1) := by
  by_cases hcan : isCanonicalUUID sid = true
  · simp only [process_file, hcan, if_true]
    cases fo.docs with
    | none => exact tsWF_add_message _ _ _ _ _ (tsWF_add_message _ _ _ _ _ h)
    | some docs =>
      cases fo.split with
      | none => exact tsWF_add_message _ _ _ _ _ (tsWF_add_message _ _ _ _ _ h)
      | some texts =>
        cases texts with
        | nil => exact tsWF_add_message _ _ _ _ _ (tsWF_add_message _ _ _ _ _ h)
        | cons t ts =>
          by_cases hcoll : fo.collOk
          · simp only [hcoll, if_true]
            exact tsWF_process_batches _ _ _ _ _ _ _ _ _ _
              (tsWF_add_message _ _ _ _ _ h)
          · replace hcoll : fo.collOk = false := by simpa using hcoll
            simp only [hcoll]
            rw [if_neg Bool.false_ne_true]
            exact tsWF_add_message _ _ _ _ _ (tsWF_add_message _ _ _ _ _ h)
  · unfold process_file
    rw [if_neg hcan]
    exact h

/-- `process_message` preserves timestamp soundness. -/
theorem tsWF_process_message (o : Oracles) (st : St) (text sid phone freshSid : String)
    (h : TsWF st) : TsWF ((process_message o st text sid phone freshSid).1) := by
  unfold process_message
  dsimp only
  split
  · exact h
  · apply tsWF_add_message
    apply tsWF_add_message
    split
    · exact h
    · exact tsWF_create_session _ _ _ _ _ h

/-- Every event preserves timestamp soundness. -/
theorem tsWF_step (o : Oracles) (st : St) (e : Event) (h : TsWF st) :
    TsWF (step o st e) := by
  cases e with
  | createSession sid phone title => exact tsWF_create_session _ _ _ _ _ h
  | addMessage sid role content => exact tsWF_add_message _ _ _ _ _ h
  | processFile sid fo fn => exact tsWF_process_file _ _ _ _ _ h
  | processMessage text sid phone freshSid => exact tsWF_process_message _ _ _ _ _ _ h

/-- Timestamp soundness holds in every reachable state. -/
theorem tsWF_runTrace (o : Oracles) (evs : List Event) :
    TsWF (runTrace o St.init evs) := by
  have hgen : ∀ (evs : List Event) (st : St), TsWF st → TsWF (runTrace o st evs) := by
    intro evs
    induction evs with
    | nil => intro st h; exact h
    | cons e evs ih => intro st h; exact ih (step o st e) (tsWF_step o st e h)
  exact hgen evs St.init ⟨List.Pairwise.nil, by intro m hm; simp [St.init] at hm⟩

/-- In every reachable state, each session's message log is strictly
ascending in timestamps: the insertion-order filter of `get_messages` is the
`ORDER BY ts` result of the SQL query. -/
theorem get_messages_ts_sorted (o : Oracles) (evs : List Event) (sid : String) :
    List.Pairwise (fun a b => a.ts < b.ts)
      (get_messages (runTrace o St.init evs) sid) :=
  List.Pairwise.sublist (List.filter_sublist _) (tsWF_runTrace o evs).1

/-- C8 witness: a concrete invalid session id on a concrete message. -/
theorem process_message_invalid_sid_witness :
    isCanonicalUUID "not-a-uuid" = false ∧ ¬ pyStrip "你好" = "" ∧
    (process_message o0 St.init "你好" "not-a-uuid" "13800138000" uuidA).2 = "not-a-uuid" ∧
    (get_messages (process_message o0 St.init "你好" "not-a-uuid" "13800138000" uuidA).1
        uuidA).map (fun m => (m.role, m.content)) = [("assistant", welcome_msg)] := by
  refine ⟨by decide, by decide, ?_, ?_⟩
  · exact (process_message_invalid_sid o0 "你好" "not-a-uuid" "13800138000" uuidA
      (by decide) (by decide) (by decide)).1
  · exact (process_message_invalid_sid o0 "你好" "not-a-uuid" "13800138000" uuidA
      (by decide) (by decide) (by decide)).2.1

end AIChatbox
